import Mathlib

/-!
Shallow embedding of `version.go` from jlucktay/version.

The package holds six global strings (executable, version, builtBy, commit,
builtWith, buildDate), optionally pre-set via ldflags, and one operation
`Details()` that lazily fills the unset fields from the environment
(os.Executable, debug.ReadBuildInfo, user.Current, os.Stat) and returns a
formatted sentence.

The environment is modelled as a record of the four effectful lookups, each
returning `Option` (`none` = the Go call returned an error / not-ok).  The
global state is a `Metadata` record.  `detailsRun` mirrors `Details()` line
by line; a Go nil-pointer dereference panic is modelled as `Except.error`
carrying the global state (and lookups performed) at the moment of the panic,
since the Go globals mutated before a panic stay mutated.
-/

set_option autoImplicit false

namespace VersionGo

/-- Go: `const unknownValue = "unknown"` (version.go line 28). -/
def unknownValue : String := "unknown"

/-- The part of `debug.BuildInfo` that `Details()` reads: the `GoVersion`
field and the `Settings` key/value list. -/
structure BuildInfo where
  goVersion : String
  settings : List (String × String)
deriving Repr, DecidableEq

/-- The six package-level globals of version.go (lines 33-58). -/
structure Metadata where
  executable : String
  version : String
  builtBy : String
  commit : String
  builtWith : String
  buildDate : String
deriving Repr, DecidableEq

/-- The four effectful lookups `Details()` can make.  `osStat` maps a path to
the RFC3339-formatted modification time of the file (`none` = stat error);
the time formatting itself is outside the embedding boundary. -/
structure Env where
  osExecutable : Option String
  readBuildInfo : Option BuildInfo
  userCurrent : Option String
  osStat : String → Option String

/-- Which lookups a run of `Details()` performed, in order. -/
inductive Lookup where
  | exePath
  | buildInfoRead
  | userLookup
  | statFile
deriving Repr, DecidableEq

/-- Go `strings.ToLower` restricted to the ASCII keys this code compares:
lower-cases every character. -/
def goToLower (s : String) : String := String.mk (s.data.map Char.toLower)

/-- Go `strings.EqualFold` restricted to ASCII (all values compared here). -/
def goEqualFold (a b : String) : Bool := goToLower a = goToLower b

/-- Go `filepath.Base` on a Unix path (no volume names): empty path gives
".", trailing separators are stripped, the last segment is returned, and a
path of only separators gives "/". -/
def filepathBase (path : String) : String :=
  if path = "" then "."
  else
    let cs := (path.data.reverse.dropWhile (fun c => c = '/')).reverse
    let seg := (cs.reverse.takeWhile (fun c => c ≠ '/')).reverse
    if seg = [] then "/" else String.mk seg

/-- One iteration of the `for index := range buildInfo.Settings` loop of
version.go lines 114-123: a `vcs.revision` value is prepended to the
accumulated commit, a true `vcs.modified` flag appends "-dirty". -/
def commitStep (entry : String × String) (acc : String) : String :=
  if goToLower entry.1 = "vcs.revision" then entry.2 ++ acc
  else if goToLower entry.1 = "vcs.modified" then
    (if goEqualFold entry.2 "true" then acc ++ "-dirty" else acc)
  else acc

/-- The whole settings loop of version.go lines 114-123. -/
def commitLoop : List (String × String) → String → String
  | [], acc => acc
  | e :: t, acc => commitLoop t (commitStep e acc)

/-- The `fmt.Sprintf` of version.go lines 141-142. -/
def sentenceOf (m : Metadata) : String :=
  m.executable ++ " " ++ m.version ++ " built by " ++ m.builtBy ++
    " from commit " ++ m.commit ++ " with " ++ m.builtWith ++ " at " ++
    m.buildDate ++ "."

/-- Go `os.Executable()` as used on line 72-75: the path, or the sentinel on
error. -/
def exeValOf (env : Env) : String :=
  match env.osExecutable with
  | some p => p
  | none => unknownValue

/-- Go `user.Current()` as used on lines 105-110: the username, or the
sentinel on error. -/
def userValOf (env : Env) : String :=
  match env.userCurrent with
  | some u => u
  | none => unknownValue

/-- Go `os.Stat(exePath)` + `ModTime().Format(time.RFC3339)` as used on
lines 130-138: the formatted time, or the sentinel on stat error. -/
def statValOf (env : Env) (p : String) : String :=
  match env.osStat p with
  | some t => t
  | none => unknownValue

/-- The `exePath` local of `Details()` (version.go lines 64, 69-76): looked
up only when `executable` or `buildDate` is unset, the Go zero value ""
otherwise. -/
def exePathOf (env : Env) (s : Metadata) : String :=
  if s.executable = "" ∨ s.buildDate = "" then exeValOf env else ""

/-- The `buildInfo` local of `Details()` (version.go lines 65, 78-80): read
only when `commit` or `builtWith` is unset, nil (`none`) otherwise. -/
def buildInfoOf (env : Env) (s : Metadata) : Option BuildInfo :=
  if s.commit = "" ∨ s.builtWith = "" then env.readBuildInfo else none

/-- The value of the `commit` global after version.go lines 78-89,
transcribed as written in the source: BOTH branches assign `commit`
(line 87 reads `commit = unknownValue` although its guard tests
`builtWith == ""`). -/
def commitPre (env : Env) (s : Metadata) : String :=
  if (s.commit = "" ∨ s.builtWith = "") ∧ env.readBuildInfo = none ∧
      s.builtWith = "" then unknownValue
  else if (s.commit = "" ∨ s.builtWith = "") ∧ env.readBuildInfo = none ∧
      s.commit = "" then unknownValue
  else s.commit

/-- The `executable` global after version.go lines 92-98. -/
def executableRes (env : Env) (s : Metadata) : String :=
  if s.executable = "" then
    (if exePathOf env s ≠ unknownValue then filepathBase (exePathOf env s)
     else unknownValue)
  else s.executable

/-- The `version` global after version.go lines 100-102. -/
def versionRes (s : Metadata) : String :=
  if s.version = "" then "v0.0.0-" ++ unknownValue else s.version

/-- The `builtBy` global after version.go lines 104-111. -/
def builtByRes (env : Env) (s : Metadata) : String :=
  if s.builtBy = "" then userValOf env else s.builtBy

/-- The `commit` global after the settings loop of version.go lines 113-124
(assuming the loop did not panic on a nil `buildInfo`). -/
def commitRes (env : Env) (s : Metadata) : String :=
  if commitPre env s = "" then
    commitLoop ((buildInfoOf env s).getD ⟨"", []⟩).settings (commitPre env s)
  else commitPre env s

/-- The `builtWith` global after version.go lines 126-128 (assuming
`buildInfo` was not nil). -/
def builtWithRes (env : Env) (s : Metadata) : String :=
  if s.builtWith = "" then ((buildInfoOf env s).getD ⟨"", []⟩).goVersion
  else s.builtWith

/-- The `buildDate` global after version.go lines 130-139. -/
def buildDateRes (env : Env) (s : Metadata) : String :=
  if s.buildDate = "" then
    (if exePathOf env s ≠ unknownValue then statValOf env (exePathOf env s)
     else unknownValue)
  else s.buildDate

/-- The six globals after a full, non-panicking run of `Details()`. -/
def finalStateOf (env : Env) (s : Metadata) : Metadata :=
  ⟨executableRes env s, versionRes s, builtByRes env s, commitRes env s,
    builtWithRes env s, buildDateRes env s⟩

/-- The lookups performed up to version.go line 111 (exe path line 72, build
info line 80, user line 105), in order. -/
def lookupsPre (_env : Env) (s : Metadata) : List Lookup :=
  (if s.executable = "" ∨ s.buildDate = "" then [Lookup.exePath] else []) ++
    (if s.commit = "" ∨ s.builtWith = "" then [Lookup.buildInfoRead] else []) ++
    (if s.builtBy = "" then [Lookup.userLookup] else [])

/-- All lookups of a full run: the stat of line 134 happens only when
`buildDate` is unset and the executable path resolved. -/
def lookupsOf (env : Env) (s : Metadata) : List Lookup :=
  lookupsPre env s ++
    (if s.buildDate = "" ∧ exePathOf env s ≠ unknownValue then [Lookup.statFile]
     else [])

/-- `Details()` of version.go lines 61-143.

Ranging over `buildInfo.Settings` (line 114) or reading
`buildInfo.GoVersion` (line 127) with a nil `buildInfo` is a Go nil-pointer
panic, modelled as `Except.error` carrying the mutated globals and the
lookups performed so far (the fields after `commit` keep their pre-call
values at the panic point). -/
def detailsRun (env : Env) (s : Metadata) :
    Except (Metadata × List Lookup) (String × Metadata × List Lookup) :=
  if commitPre env s = "" ∧ buildInfoOf env s = none then
    .error (⟨executableRes env s, versionRes s, builtByRes env s,
      commitPre env s, s.builtWith, s.buildDate⟩, lookupsPre env s)
  else if s.builtWith = "" ∧ buildInfoOf env s = none then
    .error (⟨executableRes env s, versionRes s, builtByRes env s,
      commitRes env s, s.builtWith, s.buildDate⟩, lookupsPre env s)
  else
    .ok (sentenceOf (finalStateOf env s), finalStateOf env s, lookupsOf env s)

/-- The global state after a run, whether it returned or panicked: Go
globals mutated before a panic stay mutated. -/
def resState (r : Except (Metadata × List Lookup) (String × Metadata × List Lookup)) :
    Metadata :=
  match r with
  | .error (m, _) => m
  | .ok (_, m, _) => m

/-- All six globals left empty (no ldflags set). -/
def metaEmpty : Metadata := ⟨"", "", "", "", "", ""⟩

/-- An environment in which every lookup fails. -/
def envAllFail : Env := ⟨none, none, none, fun _ => none⟩

/-- Globals with `commit` pre-set but `builtWith` left empty. -/
def metaCommitSet : Metadata := ⟨"app", "v1", "me", "deadbeef", "", "2020"⟩

/-- An environment in which only the embedded build info is unavailable. -/
def envNoBuildInfo : Env := ⟨some "/x/y", none, some "u", fun _ => some "2021"⟩

/-- All six globals pre-set, as in the spec scenario. -/
def metaPreset : Metadata :=
  ⟨"app", "v1.2.3", "alice", "deadbeef", "go1.21", "2023-01-01T00:00:00Z"⟩

/-- When every global is already non-empty, `Details()` takes no lookup,

changes nothing, and returns the sentence assembled from the six values. -/
theorem detailsRun_allSet (env : Env) (s : Metadata)
    (h1 : s.executable ≠ "") (h2 : s.version ≠ "") (h3 : s.builtBy ≠ "")
    (h4 : s.commit ≠ "") (h5 : s.builtWith ≠ "") (h6 : s.buildDate ≠ "") :
    detailsRun env s = .ok (sentenceOf s, s, []) := by
  obtain ⟨se, sv, sb, sc, sw, sd⟩ := s
  simp [detailsRun, commitPre, buildInfoOf, finalStateOf, executableRes,
    exePathOf, versionRes, builtByRes, commitRes, builtWithRes, buildDateRes,
    lookupsOf, lookupsPre, h1, h2, h3, h4, h5, h6]

/-- Projecting the commit out of a run that starts with `commit` empty and a
readable build info: it is the settings-loop result, whatever else happens. -/
theorem resState_commit_of_some (env : Env) (s : Metadata) (bi : BuildInfo)
    (hc : s.commit = "") (hbi : env.readBuildInfo = some bi) :
    (resState (detailsRun env s)).commit = commitLoop bi.settings "" := by
  simp [detailsRun, resState, commitPre, buildInfoOf, commitRes, finalStateOf,
    hc, hbi]

/-- Claim C1 (code bug): with `commit` pre-set to "deadbeef" and `builtWith`
left empty, a failing `debug.ReadBuildInfo()` makes `Details()` overwrite the
populated `commit` field with the "unknown" sentinel (version.go line 87
assigns `commit` although its guard tests `builtWith`), and the call then
panics; the populated field is NOT preserved. -/
theorem claim1_commit_overwritten :
    metaCommitSet.commit = "deadbeef" ∧
    (resState (detailsRun envNoBuildInfo metaCommitSet)).commit = unknownValue ∧
    detailsRun envNoBuildInfo metaCommitSet =
      .error (⟨"app", "v1", "me", "unknown", "", "2020"⟩, [.buildInfoRead]) :=
  ⟨rfl, rfl, rfl⟩

/-- Claim C2 (code bug): with all globals empty and every lookup failing,
`Details()` does not return a string at all: because version.go line 87 sets
`commit` instead of `builtWith`, `builtWith` is still empty at line 126 and
line 127 dereferences the nil `buildInfo` — a panic, not a sentence. -/
theorem claim2_lenient_run_panics :
    detailsRun envAllFail metaEmpty =
      .error (⟨"unknown", "v0.0.0-unknown", "unknown", "unknown", "", ""⟩,
        [.exePath, .buildInfoRead, .userLookup]) :=
  rfl

/-- Claim C4: with all six globals pre-set (non-empty), `Details()`
reproduces them verbatim in the sentence, performs no lookup, and leaves the
record unchanged. -/
theorem claim4_preset_verbatim (env : Env) (s : Metadata)
    (h1 : s.executable ≠ "") (h2 : s.version ≠ "") (h3 : s.builtBy ≠ "")
    (h4 : s.commit ≠ "") (h5 : s.builtWith ≠ "") (h6 : s.buildDate ≠ "") :
    detailsRun env s = .ok (sentenceOf s, s, []) :=
  detailsRun_allSet env s h1 h2 h3 h4 h5 h6

/-- Witness for C4: the spec scenario values, in a fully hostile
environment, give exactly the expected sentence with no lookups. -/
theorem claim4_witness :
    detailsRun envAllFail metaPreset = .ok (sentenceOf metaPreset, metaPreset, []) ∧
    sentenceOf metaPreset =
      "app v1.2.3 built by alice from commit deadbeef with go1.21 at 2023-01-01T00:00:00Z." :=
  ⟨claim4_preset_verbatim envAllFail metaPreset (by decide) (by decide)
    (by decide) (by decide) (by decide) (by decide), by decide⟩

/-- Claim C7: with `commit` unset and embedded settings holding
`vcs.revision = "abc123"` and `vcs.modified = "true"`, the resolved commit is
exactly "abc123-dirty". -/
theorem claim7_revision_dirty (env : Env) (s : Metadata) (g : String)
    (hc : s.commit = "")
    (hbi : env.readBuildInfo =
      some ⟨g, [("vcs.revision", "abc123"), ("vcs.modified", "true")]⟩) :
    (resState (detailsRun env s)).commit = "abc123-dirty" := by
  rw [resState_commit_of_some env s _ hc hbi]
  show commitLoop [("vcs.revision", "abc123"), ("vcs.modified", "true")] "" =
    "abc123-dirty"
  decide

/-- Witness for C7 at a concrete environment and the empty record. -/
theorem claim7_witness :
    (resState (detailsRun
      ⟨none,
        some ⟨"go1.21", [("vcs.revision", "abc123"), ("vcs.modified", "true")]⟩,
        none, fun _ => none⟩ metaEmpty)).commit = "abc123-dirty" :=
  claim7_revision_dirty _ metaEmpty "go1.21" rfl rfl

/-- Claim C8: with `executable` unset and the executable path resolving to
/usr/local/bin/myapp, the resolved executable is its base name "myapp",
whether or not the rest of the run completes. -/
theorem claim8_base_name (env : Env) (s : Metadata)
    (hp : env.osExecutable = some "/usr/local/bin/myapp")
    (he : s.executable = "") :
    (resState (detailsRun env s)).executable = "myapp" := by
  have hres : (resState (detailsRun env s)).executable = executableRes env s := by
    simp only [detailsRun]
    split_ifs <;> rfl
  rw [hres]
  simp [executableRes, exePathOf, he, hp, exeValOf, unknownValue]
  decide

/-- Witness for C8 at a concrete environment and the empty record. -/
theorem claim8_witness :
    (resState (detailsRun
      ⟨some "/usr/local/bin/myapp", some ⟨"go1.21", []⟩, some "u",
        fun _ => some "2020"⟩ metaEmpty)).executable = "myapp" :=
  claim8_base_name _ metaEmpty rfl rfl

/-- The string a run returned, `none` when it panicked. -/
def outOf (r : Except (Metadata × List Lookup) (String × Metadata × List Lookup)) :
    Option String :=
  match r with
  | .error _ => none
  | .ok (o, _, _) => some o

/-- Environment of the C3 counterexample: path and user lookups fail, the
embedded build info is readable but carries no vcs settings. -/
def envNoVcs : Env := ⟨none, some ⟨"go1.21", []⟩, none, fun _ => none⟩

/-- Claim C3 (counterexample): with all fields empty, the path unresolvable
and the user lookup failing, a readable build info without vcs settings makes
`Details()` return a sentence whose commit position is EMPTY, not the
"unknown" sentinel the claim requires. -/
theorem claim3_counterexample :
    detailsRun envNoVcs metaEmpty =
      .ok ("unknown v0.0.0-unknown built by unknown from commit  with go1.21 at unknown.",
        ⟨"unknown", "v0.0.0-unknown", "unknown", "", "go1.21", "unknown"⟩,
        [.exePath, .buildInfoRead, .userLookup]) ∧
    ("unknown v0.0.0-unknown built by unknown from commit  with go1.21 at unknown." :
        String) ≠
      "unknown v0.0.0-unknown built by unknown from commit unknown with go1.21 at unknown." :=
  ⟨rfl, by decide⟩

/-- Claim C3 (amended): with all fields empty, the path unresolvable, the
user lookup failing and the build info readable, `Details()` returns the
sentence over "unknown", "v0.0.0-unknown", "unknown", the settings-derived
commit (empty when no vcs entries), the build info Go version, and "unknown";
when the build info is NOT readable the call panics instead (claim C2). -/
theorem claim3_amended (st : String → Option String) (bi : BuildInfo) :
    detailsRun ⟨none, some bi, none, st⟩ metaEmpty =
      .ok (sentenceOf ⟨unknownValue, "v0.0.0-" ++ unknownValue, unknownValue,
            commitLoop bi.settings "", bi.goVersion, unknownValue⟩,
        ⟨unknownValue, "v0.0.0-" ++ unknownValue, unknownValue,
          commitLoop bi.settings "", bi.goVersion, unknownValue⟩,
        [.exePath, .buildInfoRead, .userLookup]) :=
  rfl

/-- Claim C6: when the executable path cannot be resolved and both
path-dependent fields are unset, any terminating run resolves `executable`
and `buildDate` both to the "unknown" sentinel and never stats a file. -/
theorem claim6_degrade_together (env : Env) (s : Metadata) (out : String)
    (m : Metadata) (L : List Lookup)
    (hp : env.osExecutable = none) (he : s.executable = "") (hd : s.buildDate = "")
    (hok : detailsRun env s = .ok (out, m, L)) :
    m.executable = unknownValue ∧ m.buildDate = unknownValue ∧
      Lookup.statFile ∉ L := by
  simp only [detailsRun] at hok
  split_ifs at hok
  simp only [Except.ok.injEq, Prod.mk.injEq] at hok
  obtain ⟨-, hm, hL⟩ := hok
  subst hm; subst hL
  refine ⟨?_, ?_, ?_⟩
  · simp [finalStateOf, executableRes, exePathOf, he, hd, hp, exeValOf]
  · simp [finalStateOf, buildDateRes, exePathOf, he, hd, hp, exeValOf]
  · have hexe : exePathOf env s = unknownValue := by
      simp [exePathOf, he, hd, hp, exeValOf]
    simp [lookupsOf, lookupsPre, hexe]

/-- Environment of the C6 witness: path unresolvable, everything else fine. -/
def envPathFail : Env := ⟨none, some ⟨"go", []⟩, some "u", fun _ => some "T"⟩

/-- Post-state of the C6 witness run. -/
def metaPathFail : Metadata := ⟨"unknown", "v0.0.0-unknown", "u", "", "go", "unknown"⟩

/-- Witness for C6 at a concrete environment and the empty record. -/
theorem claim6_witness :
    metaPathFail.executable = unknownValue ∧
      metaPathFail.buildDate = unknownValue ∧
      Lookup.statFile ∉ [Lookup.exePath, Lookup.buildInfoRead, Lookup.userLookup] :=
  claim6_degrade_together envPathFail metaEmpty (sentenceOf metaPathFail)
    metaPathFail [Lookup.exePath, Lookup.buildInfoRead, Lookup.userLookup]
    rfl rfl rfl rfl

/-- The settings loop leaves the accumulator alone when no entry has the
`vcs.revision` key or the `vcs.modified` key with a true value. -/
theorem commitLoop_nop (l : List (String × String)) :
    ∀ acc : String, (∀ e ∈ l, goToLower e.1 ≠ "vcs.revision" ∧
      (goToLower e.1 = "vcs.modified" → goEqualFold e.2 "true" = false)) →
    commitLoop l acc = acc := by
  induction l with
  | nil => intro acc h; rfl
  | cons e t ih =>
    intro acc h
    have he := h e (List.mem_cons_self e t)
    have step : commitStep e acc = acc := by
      simp only [commitStep]
      rw [if_neg he.1]
      split_ifs with h1 h2
      · simp [he.2 h1] at h2
      · rfl
      · rfl
    rw [commitLoop, step]
    exact ih acc (fun x hx => h x (List.mem_cons_of_mem e hx))

/-- A run that starts with `commit` empty and a readable build info returns
normally, with the returned string being the sentence over the final state. -/
theorem detailsRun_ok_of_some (env : Env) (s : Metadata) (bi : BuildInfo)
    (hc : s.commit = "") (hbi : env.readBuildInfo = some bi) :
    ∃ L, detailsRun env s =
      .ok (sentenceOf (resState (detailsRun env s)),
        resState (detailsRun env s), L) := by
  have h2 : buildInfoOf env s = some bi := by simp [buildInfoOf, hc, hbi]
  simp only [detailsRun]
  rw [if_neg (by simp [h2]), if_neg (by simp [h2])]
  simp only [resState]
  exact ⟨lookupsOf env s, rfl⟩

/-- The sentence over a record with an empty commit has an empty commit
position: "from commit  with" with nothing in between. -/
theorem sentence_empty_commit (m : Metadata) (hc : m.commit = "") :
    sentenceOf m =
      (m.executable ++ " " ++ m.version ++ " built by " ++ m.builtBy) ++
        " from commit  with " ++ (m.builtWith ++ " at " ++ m.buildDate ++ ".") := by
  rw [show (" from commit  with " : String) = " from commit " ++ " with " from rfl]
  simp [sentenceOf, hc, String.append_assoc]

/-- Claim C10: with `commit` unset, a readable build info whose settings hold
no `vcs.revision` entry and no true `vcs.modified` entry, the commit stays
the empty string (not the sentinel) and the sentence has an empty commit
position. -/
theorem claim10_vcs_absent (env : Env) (s : Metadata) (bi : BuildInfo)
    (hc : s.commit = "") (hbi : env.readBuildInfo = some bi)
    (h : ∀ e ∈ bi.settings, goToLower e.1 ≠ "vcs.revision" ∧
      (goToLower e.1 = "vcs.modified" → goEqualFold e.2 "true" = false)) :
    (resState (detailsRun env s)).commit = "" ∧
    ∃ a b, outOf (detailsRun env s) = some (a ++ " from commit  with " ++ b) := by
  have hcm : (resState (detailsRun env s)).commit = "" := by
    rw [resState_commit_of_some env s bi hc hbi]
    exact commitLoop_nop bi.settings "" h
  obtain ⟨L, hok⟩ := detailsRun_ok_of_some env s bi hc hbi
  refine ⟨hcm,
    (resState (detailsRun env s)).executable ++ " " ++
      (resState (detailsRun env s)).version ++ " built by " ++
      (resState (detailsRun env s)).builtBy,
    (resState (detailsRun env s)).builtWith ++ " at " ++
      (resState (detailsRun env s)).buildDate ++ ".", ?_⟩
  rw [hok]
  simp only [outOf]
  exact congrArg some (sentence_empty_commit _ hcm)

/-- Environment of the C10 witness: build info readable, settings hold only
non-vcs entries and a false modified flag. -/
def envVcsAbsent : Env :=
  ⟨some "/a/app", some ⟨"go1", [("other", "x"), ("vcs.modified", "false")]⟩,
    some "bob", fun _ => some "2020"⟩

/-- Witness for C10 at a concrete environment and the empty record. -/
theorem claim10_witness :
    (resState (detailsRun envVcsAbsent metaEmpty)).commit = "" ∧
    ∃ a b, outOf (detailsRun envVcsAbsent metaEmpty) =
      some (a ++ " from commit  with " ++ b) :=
  claim10_vcs_absent envVcsAbsent metaEmpty ⟨"go1", [("other", "x"), ("vcs.modified", "false")]⟩
    rfl rfl (by decide)

/-- The values of the `vcs.revision` entries of a settings list, in order
(keys compared lower-cased, as the loop does). -/
def revVals (l : List (String × String)) : List String :=
  (l.filter (fun e => goToLower e.1 == "vcs.revision")).map Prod.snd

/-- How many `vcs.modified` entries of a settings list carry a true value
(key lower-cased, value folded, as the loop does). -/
def modTrueCount (l : List (String × String)) : Nat :=
  (l.filter (fun e => goToLower e.1 == "vcs.modified" && goEqualFold e.2 "true")).length

/-- Concatenation of a list of strings. -/
def strJoin : List String → String
  | [] => ""
  | a :: t => a ++ strJoin t

/-- The "-dirty" suffix repeated. -/
def dirtyRep : Nat → String
  | 0 => ""
  | Nat.succ n => "-dirty" ++ dirtyRep n

theorem strJoin_append (a b : List String) :
    strJoin (a ++ b) = strJoin a ++ strJoin b := by
  induction a with
  | nil => simp [strJoin, String.empty_append]
  | cons x t ih => simp [strJoin, ih, String.append_assoc]

/-- Closed form of the settings loop: revision values are prepended (so they
end up in reverse order in front), each true modified flag appends one
"-dirty", and the two kinds never interleave with each other. -/
theorem commitLoop_eq (l : List (String × String)) :
    ∀ acc : String, commitLoop l acc =
      strJoin (revVals l).reverse ++ acc ++ dirtyRep (modTrueCount l) := by
  induction l with
  | nil =>
    intro acc
    simp [commitLoop, revVals, modTrueCount, strJoin, dirtyRep,
      String.empty_append, String.append_empty]
  | cons e t ih =>
    intro acc
    rw [commitLoop, ih (commitStep e acc)]
    by_cases h1 : goToLower e.1 = "vcs.revision"
    · have hstep : commitStep e acc = e.2 ++ acc := by simp [commitStep, h1]
      have hrev : revVals (e :: t) = e.2 :: revVals t := by
        simp [revVals, List.filter_cons, h1]
      have hmod : modTrueCount (e :: t) = modTrueCount t := by
        have : ¬ ("vcs.revision" = "vcs.modified") := by decide
        simp [modTrueCount, List.filter_cons, h1, this]
      rw [hstep, hrev, hmod, List.reverse_cons, strJoin_append]
      simp [strJoin, String.append_assoc, String.append_empty]
    · by_cases h2 : goToLower e.1 = "vcs.modified"
      · have hrev : revVals (e :: t) = revVals t := by
          simp [revVals, List.filter_cons, h1]
        by_cases h3 : goEqualFold e.2 "true" = true
        · have hstep : commitStep e acc = acc ++ "-dirty" := by
            simp [commitStep, h1, h2, h3]
          have hmod : modTrueCount (e :: t) = modTrueCount t + 1 := by
            simp [modTrueCount, List.filter_cons, h2, h3]
          rw [hstep, hrev, hmod]
          simp [dirtyRep, String.append_assoc]
        · have hstep : commitStep e acc = acc := by
            simp [commitStep, h1, h2, h3]
          have hmod : modTrueCount (e :: t) = modTrueCount t := by
            simp [modTrueCount, List.filter_cons, h3]
          rw [hstep, hrev, hmod]
      · have hstep : commitStep e acc = acc := by simp [commitStep, h1, h2]
        have hrev : revVals (e :: t) = revVals t := by
          simp [revVals, List.filter_cons, h1]
        have hmod : modTrueCount (e :: t) = modTrueCount t := by
          simp [modTrueCount, List.filter_cons, h2]
        rw [hstep, hrev, hmod]

/-- Environment of the C9 counterexample: two revision entries and one true
modified flag. -/
def envTwoRevs : Env :=
  ⟨some "/a/b",
    some ⟨"go1", [("vcs.revision", "a"), ("vcs.revision", "b"), ("vcs.modified", "true")]⟩,
    some "u", fun _ => some "2020"⟩

/-- Claim C9 (counterexample): a settings list CONTAINING a revision entry
with value "a" and a true modified entry resolves the commit to "ba-dirty"
(both revision values prepended), not to "a-dirty": the claim as stated, for
every list containing such entries, is false once a second revision entry is
present. -/
theorem claim9_counterexample :
    (("vcs.revision", "a") ∈
      [("vcs.revision", "a"), ("vcs.revision", "b"), ("vcs.modified", "true")]) ∧
    (("vcs.modified", "true") ∈
      [("vcs.revision", "a"), ("vcs.revision", "b"), ("vcs.modified", "true")]) ∧
    (resState (detailsRun envTwoRevs metaEmpty)).commit = "ba-dirty" ∧
    ("ba-dirty" : String) ≠ "a" ++ "-dirty" :=
  ⟨by decide, by decide, rfl, by decide⟩

/-- Claim C9 (amended): for a settings list whose vcs-relevant content is
exactly one revision entry (value r) and exactly one true modified entry —
in either order, with arbitrary other entries — the resolved commit is
r ++ "-dirty": the revision value is prepended, the dirty suffix appended,
so the two orders agree. -/
theorem claim9_order_independent (env : Env) (s : Metadata) (bi : BuildInfo)
    (r : String) (hc : s.commit = "") (hbi : env.readBuildInfo = some bi)
    (hrev : revVals bi.settings = [r]) (hmod : modTrueCount bi.settings = 1) :
    (resState (detailsRun env s)).commit = r ++ "-dirty" := by
  rw [resState_commit_of_some env s bi hc hbi, commitLoop_eq, hrev, hmod]
  simp [strJoin, dirtyRep, String.append_assoc, String.append_empty]

/-- Environment of the C9 witness: the modified flag (odd casing) comes
before the revision entry, with an unrelated entry in front. -/
def envModFirst : Env :=
  ⟨none,
    some ⟨"go1", [("x", "1"), ("VCS.Modified", "TRUE"), ("vcs.revision", "abc")]⟩,
    none, fun _ => none⟩

/-- Witness for C9 at a concrete environment: modified-before-revision with
case-folded key and value still gives "abc-dirty". -/
theorem claim9_witness :
    (resState (detailsRun envModFirst metaEmpty)).commit = "abc" ++ "-dirty" :=
  claim9_order_independent envModFirst metaEmpty
    ⟨"go1", [("x", "1"), ("VCS.Modified", "TRUE"), ("vcs.revision", "abc")]⟩
    "abc" rfl rfl (by decide) (by decide)

theorem filepathBase_ne_empty (p : String) : filepathBase p ≠ "" := by
  simp only [filepathBase]
  split_ifs with h1 h2
  · decide
  · decide
  · intro hcon
    apply h2
    have := congrArg String.data hcon
    simpa using this

theorem executableRes_ne (env : Env) (s : Metadata) : executableRes env s ≠ "" := by
  simp only [executableRes]
  split_ifs with h1 h2
  · exact filepathBase_ne_empty _
  · decide
  · exact h1

theorem versionRes_ne (s : Metadata) : versionRes s ≠ "" := by
  simp only [versionRes]
  split_ifs with h
  · decide
  · exact h

theorem builtByRes_empty (env : Env) (s : Metadata) (h : builtByRes env s = "") :
    env.userCurrent = some "" := by
  by_cases hb : s.builtBy = ""
  · simp only [builtByRes, if_pos hb] at h
    cases hc : env.userCurrent with
    | none => simp [userValOf, hc, unknownValue] at h
    | some u => simp only [userValOf, hc] at h; rw [h]
  · simp [builtByRes, hb] at h

theorem commitRes_empty (env : Env) (s : Metadata)
    (hne : ¬(commitPre env s = "" ∧ buildInfoOf env s = none))
    (h : commitRes env s = "") :
    ∃ bi, env.readBuildInfo = some bi ∧ commitLoop bi.settings "" = "" := by
  by_cases hp : commitPre env s = ""
  · have hbi : buildInfoOf env s ≠ none := fun hn => hne ⟨hp, hn⟩
    obtain ⟨bi, hbi2⟩ := Option.ne_none_iff_exists'.mp hbi
    have hrb : env.readBuildInfo = some bi := by
      by_cases hn : s.commit = "" ∨ s.builtWith = ""
      · simpa [buildInfoOf, hn] using hbi2
      · simp [buildInfoOf, hn] at hbi2
    refine ⟨bi, hrb, ?_⟩
    simp only [commitRes, if_pos hp] at h
    rw [hbi2, hp] at h
    simpa using h
  · simp [commitRes, hp] at h

theorem builtWithRes_empty (env : Env) (s : Metadata)
    (hne : ¬(s.builtWith = "" ∧ buildInfoOf env s = none))
    (h : builtWithRes env s = "") :
    ∃ bi, env.readBuildInfo = some bi ∧ bi.goVersion = "" := by
  by_cases hw : s.builtWith = ""
  · have hbi : buildInfoOf env s ≠ none := fun hn => hne ⟨hw, hn⟩
    obtain ⟨bi, hbi2⟩ := Option.ne_none_iff_exists'.mp hbi
    have hrb : env.readBuildInfo = some bi := by
      simpa [buildInfoOf, hw] using hbi2
    refine ⟨bi, hrb, ?_⟩
    simp only [builtWithRes, if_pos hw] at h
    rw [hbi2] at h
    simpa using h
  · simp [builtWithRes, hw] at h

theorem buildDateRes_empty (env : Env) (s : Metadata) (h : buildDateRes env s = "") :
    ∃ p, env.osExecutable = some p ∧ p ≠ unknownValue ∧ env.osStat p = some "" := by
  by_cases hd : s.buildDate = ""
  · simp only [buildDateRes, if_pos hd] at h
    by_cases hx : exePathOf env s ≠ unknownValue
    · rw [if_pos hx] at h
      have hexe : exePathOf env s = exeValOf env := by simp [exePathOf, hd]
      cases hoe : env.osExecutable with
      | none => rw [hexe] at hx; simp [exeValOf, hoe] at hx
      | some p =>
        have hxp : exePathOf env s = p := by rw [hexe]; simp [exeValOf, hoe]
        refine ⟨p, rfl, ?_, ?_⟩
        · rw [hxp] at hx; exact hx
        · rw [hxp] at h
          cases hst : env.osStat p with
          | none => simp [statValOf, hst, unknownValue] at h
          | some t => simp only [statValOf, hst] at h; rw [h]
    · rw [if_neg hx] at h
      exact absurd h (by decide)
  · simp [buildDateRes, hd] at h

/-- The string an ok-run returns is the sentence over its post-state. -/
theorem detailsRun_ok_out (env : Env) (s : Metadata) (out : String)
    (m : Metadata) (L : List Lookup)
    (hok : detailsRun env s = .ok (out, m, L)) : out = sentenceOf m := by
  simp only [detailsRun] at hok
  split_ifs at hok
  simp only [Except.ok.injEq, Prod.mk.injEq] at hok
  obtain ⟨h1, h2, -⟩ := hok
  rw [← h1, h2]

/-- What an ok-run guarantees about its post-state: executable and version
are never empty, and a field that IS empty pins down the environment (the
lookup genuinely returned the empty string). -/
theorem detailsRun_post_facts (env : Env) (s : Metadata) (out : String)
    (m : Metadata) (L : List Lookup)
    (hok : detailsRun env s = .ok (out, m, L)) :
    m.executable ≠ "" ∧ m.version ≠ "" ∧
    (m.builtBy = "" → env.userCurrent = some "") ∧
    (m.commit = "" → ∃ bi, env.readBuildInfo = some bi ∧
      commitLoop bi.settings "" = "") ∧
    (m.builtWith = "" → ∃ bi, env.readBuildInfo = some bi ∧ bi.goVersion = "") ∧
    (m.buildDate = "" → ∃ p, env.osExecutable = some p ∧ p ≠ unknownValue ∧
      env.osStat p = some "") := by
  simp only [detailsRun] at hok
  split_ifs at hok with hc1 hc2
  simp only [Except.ok.injEq, Prod.mk.injEq] at hok
  obtain ⟨-, hm, -⟩ := hok
  subst hm
  exact ⟨executableRes_ne env s, versionRes_ne s,
    fun h => builtByRes_empty env s h,
    fun h => commitRes_empty env s hc1 h,
    fun h => builtWithRes_empty env s hc2 h,
    fun h => buildDateRes_empty env s h⟩

/-- Running `Details()` from a state with the post-run guarantees is a
no-op: it returns normally, changes nothing, and outputs the sentence over
that very state. -/
theorem detailsRun_resolved (env : Env) (m : Metadata)
    (h1 : m.executable ≠ "") (h2 : m.version ≠ "")
    (h3 : m.builtBy = "" → env.userCurrent = some "")
    (h4 : m.commit = "" → ∃ bi, env.readBuildInfo = some bi ∧
      commitLoop bi.settings "" = "")
    (h5 : m.builtWith = "" → ∃ bi, env.readBuildInfo = some bi ∧ bi.goVersion = "")
    (h6 : m.buildDate = "" → ∃ p, env.osExecutable = some p ∧ p ≠ unknownValue ∧
      env.osStat p = some "") :
    detailsRun env m = .ok (sentenceOf m, m, lookupsOf env m) := by
  have hcp : commitPre env m = m.commit := by
    by_cases hw : m.builtWith = ""
    · obtain ⟨bi, hbi, -⟩ := h5 hw
      simp [commitPre, hbi]
    · by_cases hcm : m.commit = ""
      · obtain ⟨bi, hbi, -⟩ := h4 hcm
        simp [commitPre, hbi]
      · simp [commitPre, hcm, hw]
  have hxr : executableRes env m = m.executable := by simp [executableRes, h1]
  have hvr : versionRes m = m.version := by simp [versionRes, h2]
  have hbr : builtByRes env m = m.builtBy := by
    by_cases hb : m.builtBy = ""
    · simp [builtByRes, hb, userValOf, h3 hb]
    · simp [builtByRes, hb]
  have hcr : commitRes env m = m.commit := by
    by_cases hcm : m.commit = ""
    · obtain ⟨bi, hbi, hloop⟩ := h4 hcm
      have hbio : buildInfoOf env m = some bi := by simp [buildInfoOf, hcm, hbi]
      simp [commitRes, hcp, hcm, hbio, hloop]
    · simp [commitRes, hcp, hcm]
  have hwr : builtWithRes env m = m.builtWith := by
    by_cases hw : m.builtWith = ""
    · obtain ⟨bi, hbi, hgv⟩ := h5 hw
      have hbio : buildInfoOf env m = some bi := by simp [buildInfoOf, hw, hbi]
      simp [builtWithRes, hw, hbio, hgv]
    · simp [builtWithRes, hw]
  have hdr : buildDateRes env m = m.buildDate := by
    by_cases hd : m.buildDate = ""
    · obtain ⟨p, hoe, hne, hst⟩ := h6 hd
      have hexe : exePathOf env m = p := by simp [exePathOf, hd, exeValOf, hoe]
      simp [buildDateRes, hd, hexe, hne, statValOf, hst]
    · simp [buildDateRes, hd]
  have hcond1 : ¬(commitPre env m = "" ∧ buildInfoOf env m = none) := by
    rintro ⟨hp, hn⟩
    rw [hcp] at hp
    obtain ⟨bi, hbi, -⟩ := h4 hp
    simp [buildInfoOf, hp, hbi] at hn
  have hcond2 : ¬(m.builtWith = "" ∧ buildInfoOf env m = none) := by
    rintro ⟨hw, hn⟩
    obtain ⟨bi, hbi, -⟩ := h5 hw
    simp [buildInfoOf, hw, hbi] at hn
  have hfs : finalStateOf env m = m := by
    simp [finalStateOf, hxr, hvr, hbr, hcr, hwr, hdr]
  simp only [detailsRun]
  rw [if_neg hcond1, if_neg hcond2, hfs]

/-- Environment of the C5 counterexample and witness: every lookup succeeds
but the build info has no vcs settings, so `commit` resolves to "". -/
def envRich : Env := ⟨some "/a/b", some ⟨"go1", []⟩, some "u", fun _ => some "2020"⟩

/-- Post-state of the first `envRich` run: all fields set except `commit`. -/
def metaAfterFirst : Metadata := ⟨"b", "v0.0.0-unknown", "u", "", "go1", "2020"⟩

/-- Claim C5 (counterexample): after a first call that leaves `commit`
empty (readable build info, no vcs settings), the second call returns the
identical string BUT re-reads the build info: its lookup list is not
empty, so the "no fallback lookup on the second call" part of the claim
fails. -/
theorem claim5_counterexample :
    detailsRun envRich metaEmpty =
      .ok ("b v0.0.0-unknown built by u from commit  with go1 at 2020.",
        metaAfterFirst, [.exePath, .buildInfoRead, .userLookup, .statFile]) ∧
    detailsRun envRich metaAfterFirst =
      .ok ("b v0.0.0-unknown built by u from commit  with go1 at 2020.",
        metaAfterFirst, [.buildInfoRead]) ∧
    ([Lookup.buildInfoRead] : List Lookup) ≠ [] :=
  ⟨rfl, rfl, by decide⟩

/-- Claim C5 (amended): whenever a first call to `Details()` terminates
normally, a second call terminates normally with the identical string and
identical state; the second call performs no lookup provided every field is
non-empty after the first call (a field can stay empty only when its lookup
itself produced the empty string — e.g. commit with vcs-less build info —
and is then re-performed).  When the first call panics (claim C2) there is
no second string at all. -/
theorem claim5_idempotent (env : Env) (s : Metadata) (out : String)
    (m : Metadata) (L1 : List Lookup)
    (hok : detailsRun env s = .ok (out, m, L1)) :
    detailsRun env m = .ok (out, m, lookupsOf env m) ∧
      (m.executable ≠ "" ∧ m.version ≠ "" ∧ m.builtBy ≠ "" ∧ m.commit ≠ "" ∧
        m.builtWith ≠ "" ∧ m.buildDate ≠ "" → lookupsOf env m = []) := by
  obtain ⟨p1, p2, p3, p4, p5, p6⟩ := detailsRun_post_facts env s out m L1 hok
  have hout := detailsRun_ok_out env s out m L1 hok
  have hres := detailsRun_resolved env m p1 p2 p3 p4 p5 p6
  constructor
  · rw [hres, hout]
  · rintro ⟨q1, q2, q3, q4, q5, q6⟩
    simp [lookupsOf, lookupsPre, exePathOf, q1, q3, q4, q5, q6]

/-- Witness for C5: a concrete first run, then the amended idempotence
applied to it. -/
theorem claim5_witness :
    detailsRun envRich metaAfterFirst =
      .ok ("b v0.0.0-unknown built by u from commit  with go1 at 2020.",
        metaAfterFirst, lookupsOf envRich metaAfterFirst) ∧
      (metaAfterFirst.executable ≠ "" ∧ metaAfterFirst.version ≠ "" ∧
        metaAfterFirst.builtBy ≠ "" ∧ metaAfterFirst.commit ≠ "" ∧
        metaAfterFirst.builtWith ≠ "" ∧ metaAfterFirst.buildDate ≠ "" →
        lookupsOf envRich metaAfterFirst = []) :=
  claim5_idempotent envRich metaEmpty
    "b v0.0.0-unknown built by u from commit  with go1 at 2020."
    metaAfterFirst [.exePath, .buildInfoRead, .userLookup, .statFile] rfl

end VersionGo
